import Mathlib

/-!
Shallow embedding of the Arduino relay-controller firmware
(`sketch_2025_10_14.ino`): the line accumulator (`readLine` + the
line-handling part of `loop`), the command handler (`handleCommand`)
and the non-blocking relay scheduler (tail of `loop`).

Machine integers: `uint32_t` values are modelled as `Nat` reduced
modulo `2^32` exactly where the C code's arithmetic wraps; `int`/`long`
values coming out of `String::toInt` are modelled as `Int`.
-/

namespace RelayFw

/-- `2^32`, the modulus of `uint32_t` arithmetic. -/
def UINT32_MOD : Nat := 2 ^ 32

/-- Cast a C `long` value to `uint32_t` (the `(uint32_t)delayMs` casts). -/
def toUInt32 (z : Int) : Nat := (z % (UINT32_MOD : Int)).toNat

/-- `const int RELAY_PINS[] = {2, 3, 5, 7, 13};` -/
def RELAY_PINS : List Int := [2, 3, 5, 7, 13]

/-- `NUM_RELAYS = sizeof(RELAY_PINS)/sizeof(RELAY_PINS[0])` (= 5). -/
def NUM_RELAYS : Nat := RELAY_PINS.length

/-- `#define RELAYS_ACTIVE_LOW true` -/
def RELAYS_ACTIVE_LOW : Bool := true

/-- `setRelay` polarity handling: the physical level driven for a
logical on/off request (`level = RELAYS_ACTIVE_LOW ? !on : on`). -/
def relayLevel (b : Bool) : Bool :=
  if RELAYS_ACTIVE_LOW then !b else b

/-- `const char *HANDSHAKE_Q = "Hi, are you arduino?";` -/
def HANDSHAKE_Q : List Char := "Hi, are you arduino?".toList

/-- The literal `"PING"`. -/
def KW_PING : List Char := "PING".toList

/-- The literal `"LED ON"`. -/
def KW_LED_ON : List Char := "LED ON".toList

/-- The literal `"LED OFF"`. -/
def KW_LED_OFF : List Char := "LED OFF".toList

/-- The literal `"STATUS"`. -/
def KW_STATUS : List Char := "STATUS".toList

/-- The literal `"RELAY_ON;"`. -/
def PRE_RELAY_ON : List Char := "RELAY_ON;".toList

/-- The literal `"RELAY_ON_OVERWRITE;"`. -/
def PRE_RELAY_ON_OW : List Char := "RELAY_ON_OVERWRITE;".toList

/-- `const char *HANDSHAKE_A = "This is Arduino";` -/
def HANDSHAKE_A : String := "This is Arduino"

/-- The firmware's mutable state: the LED level and the two per-channel
schedule arrays `relayOnAt` / `relayOffAt` (`uint32_t`, `0` = unset). -/
structure SysState where
  led : Bool
  relayOnAt : Fin NUM_RELAYS → Nat
  relayOffAt : Fin NUM_RELAYS → Nat

/-- State after `setup()`: LED low, both schedule arrays all-zero. -/
def initState : SysState :=
  { led := false, relayOnAt := fun _ => 0, relayOffAt := fun _ => 0 }

/-- Point update of a schedule array (`relayOnAt[i] = v`). -/
def updAt (f : Fin NUM_RELAYS → Nat) (i : Fin NUM_RELAYS) (v : Nat) :
    Fin NUM_RELAYS → Nat :=
  fun j => if j = i then v else f j

/-! ### Arduino `String` primitives used by `handleCommand` -/

/-- `String::equalsIgnoreCase` (byte-wise `tolower` comparison; the
Lean `Char.toLower` agrees with avr `tolower` on ASCII). -/
def eqIgnoreCase (a b : List Char) : Bool :=
  a.map Char.toLower == b.map Char.toLower

/-- `String::startsWith` (case-sensitive prefix test; first argument is
the sought prefix pattern). -/
def startsWithL : List Char → List Char → Bool
  | [], _ => true
  | _ :: _, [] => false
  | p :: ps, c :: cs => p == c && startsWithL ps cs

/-- Helper for `indexOfFrom`: scan for `ch`, reporting the absolute
index that the scan position `i` has reached. -/
def indexOfAux (ch : Char) : List Char → Nat → Int
  | [], _ => -1
  | c :: cs, i => if c == ch then (i : Int) else indexOfAux ch cs (i + 1)

/-- `String::indexOf(ch, fromIndex)`: index of the first occurrence of
`ch` at position ≥ `start`, or `-1`. -/
def indexOfFrom (l : List Char) (ch : Char) (start : Nat) : Int :=
  indexOfAux ch (l.drop start) start

/-- `String::substring(from, to)`: characters in `[a, b)`. -/
def substringL (l : List Char) (a b : Nat) : List Char :=
  (l.take b).drop a

/-- avr-libc `isspace` (the character class used by `String::trim`). -/
def isSpaceA (c : Char) : Bool :=
  c == ' ' || c == '\t' || c == '\n' || c == '\x0b' || c == '\x0c' || c == '\r'

/-- Accumulate the leading decimal digits of `l` into a number. -/
def digitsVal : List Char → Nat → Nat
  | c :: cs, acc =>
    if c.isDigit then digitsVal cs (acc * 10 + (c.toNat - '0'.toNat))
    else acc
  | [], acc => acc

/-- `String::toInt` = avr-libc `atol`: skip leading whitespace, an
optional sign, then leading decimal digits; anything malformed (or the
empty digit run) yields `0`. -/
def toIntA (l : List Char) : Int :=
  let l1 := l.dropWhile isSpaceA
  match l1 with
  | '-' :: rest => -(digitsVal rest 0 : Int)
  | '+' :: rest => (digitsVal rest 0 : Int)
  | _ => (digitsVal l1 0 : Int)

/-- `String::trim`: strip leading and trailing `isspace` characters. -/
def trimL (l : List Char) : List Char :=
  ((l.dropWhile isSpaceA).reverse.dropWhile isSpaceA).reverse

/-! ### The relay scheduler -/

/-- The pin-lookup loop `for i: if (RELAY_PINS[i] == pin) ...` —
the first channel index whose configured pin equals `pin`. -/
def findPin (pin : Int) : Option (Fin NUM_RELAYS) :=
  (List.finRange NUM_RELAYS).find? (fun i => RELAY_PINS.get i == pin)

/-- The body of the two `RELAY_ON` branches of `handleCommand` once the
fields are parsed: look the pin up, apply the busy check unless
`overwrite`, otherwise store `on_at = now + delay` and
`off_at = on_at + dur` (`uint32_t` wrap-around arithmetic) and reply.
Returns the reply line and the successor state. -/
def armStep (s : SysState) (pin : Int) (delayMs durMs : Int)
    (overwrite : Bool) (now : Nat) : String × SysState :=
  match findPin pin with
  | none => ("ERR", s)
  | some i =>
    if !overwrite && decide (now < s.relayOffAt i) then ("BUSY", s)
    else
      let onAt := (now + toUInt32 delayMs) % UINT32_MOD
      let offAt := (onAt + toUInt32 durMs) % UINT32_MOD
      ("OK", { s with relayOnAt := updAt s.relayOnAt i onAt,
                      relayOffAt := updAt s.relayOffAt i offAt })

/-- Field extraction shared by the two relay branches: the three `;`
positions `p1,p2,p3`; `none` when any is `-1`, otherwise the three
`toInt`-parsed fields (pin, delay_ms, dur_ms). -/
def relayFields (cmd : List Char) : Option (Int × Int × Int) :=
  let p1 := indexOfFrom cmd ';' 0
  let p2 := indexOfFrom cmd ';' (p1 + 1).toNat
  let p3 := indexOfFrom cmd ';' (p2 + 1).toNat
  if p1 < 0 || p2 < 0 || p3 < 0 then none
  else some (toIntA (substringL cmd (p1 + 1).toNat p2.toNat),
             toIntA (substringL cmd (p2 + 1).toNat p3.toNat),
             toIntA (cmd.drop (p3 + 1).toNat))

/-- `handleCommand`: dispatch a complete trimmed command line, returning
the single reply line printed and the successor state. `now` is the
`millis()` value read inside the relay branches. -/
def handleCommand (s : SysState) (cmd : List Char) (now : Nat) :
    String × SysState :=
  if eqIgnoreCase cmd KW_PING then ("PONG", s)
  else if eqIgnoreCase cmd KW_LED_ON then ("OK", { s with led := true })
  else if eqIgnoreCase cmd KW_LED_OFF then ("OK", { s with led := false })
  else if eqIgnoreCase cmd KW_STATUS then ("READY", s)
  else if eqIgnoreCase cmd HANDSHAKE_Q then (HANDSHAKE_A, s)
  else if startsWithL PRE_RELAY_ON cmd then
    match relayFields cmd with
    | none => ("ERR", s)
    | some (pin, d, u) => armStep s pin d u false now
  else if startsWithL PRE_RELAY_ON_OW cmd then
    match relayFields cmd with
    | none => ("ERR", s)
    | some (pin, d, u) => armStep s pin d u true now
  else ("ERR", s)

/-! ### The scheduler tick (tail of `loop()`) -/

/-- The logical transitions (`true` = energize, `false` = de-energize)
that the tick applies to channel `i`, in source order: the on-check
(`relayOnAt[i] && now >= relayOnAt[i]`) before the off-check. -/
def channelEvents (s : SysState) (now : Nat) (i : Fin NUM_RELAYS) :
    List Bool :=
  (if s.relayOnAt i ≠ 0 ∧ s.relayOnAt i ≤ now then [true] else []) ++
  (if s.relayOffAt i ≠ 0 ∧ s.relayOffAt i ≤ now then [false] else [])

/-- The full ordered sequence of `setRelay` calls one tick performs,
tagged with the channel. -/
def tickEvents (s : SysState) (now : Nat) :
    List (Fin NUM_RELAYS × Bool) :=
  (List.finRange NUM_RELAYS).flatMap
    (fun i => (channelEvents s now i).map (fun b => (i, b)))

/-- The state after one scheduler tick: a deadline that was nonzero and
`≤ now` has fired and is cleared to `0`; everything else persists. -/
def tick (s : SysState) (now : Nat) : SysState :=
  { s with
    relayOnAt := fun i =>
      if s.relayOnAt i ≠ 0 ∧ s.relayOnAt i ≤ now then 0 else s.relayOnAt i,
    relayOffAt := fun i =>
      if s.relayOffAt i ≠ 0 ∧ s.relayOffAt i ≤ now then 0 else s.relayOffAt i }

/-! ### The line accumulator (`readLine` + line handling in `loop`) -/

/-- One character entering `readLine`'s buffer: append, then apply the
overflow guard `if (out.length() > 120) out = "";`. -/
def pushChar (b : List Char) (c : Char) : List Char :=
  let b' := b ++ [c]
  if b'.length > 120 then [] else b'

/-- Drain a burst of incoming bytes through `readLine` and the
line-completion logic of `loop`: `\r` dropped, `\n` completes a line
(the loop clears the buffer afterwards via `line = ""`), other bytes go
through `pushChar`. Returns the completed lines in order and the
residual buffer. -/
def drainLines : List Char → List Char → List (List Char) × List Char
  | buf, [] => ([], buf)
  | buf, c :: rest =>
    if c = '\r' then drainLines buf rest
    else if c = '\n' then
      let r := drainLines [] rest
      (buf :: r.1, r.2)
    else drainLines (pushChar buf c) rest

/-- `loop`'s treatment of one completed line: trim, and only a
non-empty trimmed line reaches `handleCommand` (so only it can reply or
change state). -/
def handleLine (s : SysState) (now : Nat) (line : List Char) :
    Option String × SysState :=
  let t := trimL line
  if t.length > 0 then
    let r := handleCommand s t now
    (some r.1, r.2)
  else (none, s)

/-- Handle a sequence of completed lines, collecting the emitted
replies. -/
def processLines (s : SysState) (now : Nat) :
    List (List Char) → List String × SysState
  | [] => ([], s)
  | l :: ls =>
    let r := handleLine s now l
    let rest := processLines r.2 now ls
    (r.1.toList ++ rest.1, rest.2)

/-! ### The spec's wrap-safe due test (for the wraparound claim) -/

/-- Modelled from the spec: the wrap-safe due-comparison §4.3 prescribes
for `tick` (absent from the source, which compares with plain `>=`):
"`now - deadline` interpreted as the width's unsigned difference, due
when the result's sign bit is not set". -/
def wrapDue (now deadline : Nat) : Bool :=
  (now + UINT32_MOD - deadline % UINT32_MOD) % UINT32_MOD < 2 ^ 31

end RelayFw

namespace RelayFw

/-! ### Helper lemmas -/

/-- Channel index of pin 13 (the last entry of `RELAY_PINS`). -/
def ch13 : Fin NUM_RELAYS := ⟨4, by decide⟩

theorem updAt_same (f : Fin NUM_RELAYS → Nat) (i : Fin NUM_RELAYS)
    (v : Nat) : updAt f i v i = v := by
  simp [updAt]

theorem updAt_other (f : Fin NUM_RELAYS → Nat) {i j : Fin NUM_RELAYS}
    (v : Nat) (h : j ≠ i) : updAt f i v j = f j := by
  simp [updAt, h]

theorem eqIgnoreCase_length {a b : List Char}
    (h : eqIgnoreCase a b = true) : a.length = b.length := by
  have hm : a.map Char.toLower = b.map Char.toLower := by
    simpa [eqIgnoreCase] using h
  calc a.length = (a.map Char.toLower).length := (List.length_map _ _).symm
    _ = (b.map Char.toLower).length := by rw [hm]
    _ = b.length := List.length_map _ _

theorem startsWithL_iff {p l : List Char} :
    startsWithL p l = true ↔ ∃ t, l = p ++ t := by
  induction p generalizing l with
  | nil => simp [startsWithL]
  | cons c cs ih =>
    cases l with
    | nil => simp [startsWithL]
    | cons a as =>
      simp only [startsWithL, Bool.and_eq_true, beq_iff_eq, ih,
        List.cons_append, List.cons.injEq]
      constructor
      · rintro ⟨rfl, t, rfl⟩; exact ⟨t, rfl, rfl⟩
      · rintro ⟨t, rfl, rfl⟩; exact ⟨rfl, t, rfl⟩

theorem findPin_eq_none {pin : Int} (h : pin ∉ RELAY_PINS) :
    findPin pin = none := by
  unfold findPin
  rw [List.find?_eq_none]
  intro i _ hbeq
  have hget : RELAY_PINS.get i = pin := by simpa using hbeq
  exact h (hget ▸ RELAY_PINS.get_mem i i.isLt)

/-! ### C1 -/

/-- C1: for every channel, a non-overwrite arm while the channel's
`off_at` is still in the future relative to `now` replies `BUSY` and
leaves the whole state (in particular `on_at`/`off_at`) unchanged; in
particular after a non-overwrite arm returned `OK` (Armed), a second
non-overwrite arm on the same pin before `off_at` elapses replies
`BUSY` with no state change. -/
theorem busy_rejects_nonoverwrite_arm :
    (∀ (s : SysState) (pin d u : Int) (now : Nat) (i : Fin NUM_RELAYS),
       findPin pin = some i → now < s.relayOffAt i →
       armStep s pin d u false now = ("BUSY", s)) ∧
    (∀ (s : SysState) (pin d u : Int) (now : Nat) (s' : SysState)
       (i : Fin NUM_RELAYS) (d' u' : Int) (now' : Nat),
       findPin pin = some i →
       armStep s pin d u false now = ("OK", s') →
       now' < s'.relayOffAt i →
       armStep s' pin d' u' false now' = ("BUSY", s')) := by
  have base : ∀ (s : SysState) (pin d u : Int) (now : Nat)
      (i : Fin NUM_RELAYS), findPin pin = some i → now < s.relayOffAt i →
      armStep s pin d u false now = ("BUSY", s) := by
    intro s pin d u now i hfind hlt
    simp [armStep, hfind, hlt]
  exact ⟨base, fun s pin d u now s' i d' u' now' hfind _ hlt =>
    base s' pin d' u' now' i hfind hlt⟩

/-- Witness for C1: with `off_at` of channel 4 (pin 13) set to 100, a
non-overwrite arm at `now = 50` replies `BUSY` and changes nothing; and
after arming pin 13 at `now = 100` with delay 0, duration 5, a second
non-overwrite arm at `now = 103` replies `BUSY` and changes nothing. -/
theorem busy_rejects_nonoverwrite_arm_witness :
    armStep { initState with relayOffAt := updAt initState.relayOffAt ch13 100 }
        13 1 2 false 50 =
      ("BUSY", { initState with relayOffAt := updAt initState.relayOffAt ch13 100 }) ∧
    armStep (armStep initState 13 0 5 false 100).2 13 0 7 false 103 =
      ("BUSY", (armStep initState 13 0 5 false 100).2) :=
  ⟨busy_rejects_nonoverwrite_arm.1 _ 13 1 2 50 ch13 (by decide) (by decide),
   busy_rejects_nonoverwrite_arm.2 initState 13 0 5 100 _ ch13 0 7 103
     (by decide) rfl (by decide)⟩

/-! ### C2 -/

/-- C2: an overwrite arm never replies `BUSY`: it replies `ERR` when no
configured channel has the given pin, and otherwise replies `OK` and
unconditionally replaces both timestamps with
`on_at = (now + delay) mod 2^32` and `off_at = (on_at + dur) mod 2^32`,
whatever the prior schedule was. -/
theorem overwrite_arm_never_busy :
    (∀ (s : SysState) (pin d u : Int) (now : Nat), pin ∉ RELAY_PINS →
       armStep s pin d u true now = ("ERR", s)) ∧
    (∀ (s : SysState) (pin d u : Int) (now : Nat) (i : Fin NUM_RELAYS),
       findPin pin = some i →
       armStep s pin d u true now =
         ("OK", { s with
            relayOnAt := updAt s.relayOnAt i ((now + toUInt32 d) % UINT32_MOD),
            relayOffAt := updAt s.relayOffAt i
              (((now + toUInt32 d) % UINT32_MOD + toUInt32 u) % UINT32_MOD) })) ∧
    (∀ (s : SysState) (pin d u : Int) (now : Nat),
       (armStep s pin d u true now).1 ≠ "BUSY") := by
  refine ⟨fun s pin d u now h => by simp [armStep, findPin_eq_none h],
    fun s pin d u now i hfind => by simp [armStep, hfind],
    fun s pin d u now => ?_⟩
  unfold armStep
  cases findPin pin with
  | none => simp
  | some i => simp

/-- Witness for C2: pin 99 is not configured so an overwrite arm
replies `ERR`; an overwrite arm of pin 13 at `now = 100` with delay 5,
duration 7 replies `OK` and stores `on_at = 105`, `off_at = 112` even
though `off_at` was already set to 500; and its reply is not `BUSY`. -/
theorem overwrite_arm_never_busy_witness :
    armStep { initState with relayOffAt := updAt initState.relayOffAt ch13 500 }
        99 5 7 true 100 =
      ("ERR", { initState with relayOffAt := updAt initState.relayOffAt ch13 500 }) ∧
    armStep { initState with relayOffAt := updAt initState.relayOffAt ch13 500 }
        13 5 7 true 100 =
      ("OK", { initState with
         relayOnAt := updAt initState.relayOnAt ch13 105,
         relayOffAt := updAt (updAt initState.relayOffAt ch13 500) ch13 112 }) ∧
    (armStep initState 13 5 7 true 100).1 ≠ "BUSY" :=
  ⟨overwrite_arm_never_busy.1 _ 99 5 7 100 (by decide),
   overwrite_arm_never_busy.2.1 _ 13 5 7 100 ch13 (by decide),
   overwrite_arm_never_busy.2.2 initState 13 5 7 100⟩

end RelayFw

namespace RelayFw

/-! ### C5 -/

/-- Counterexample to C5: arming pin 13 at `now = 100` with delay 5 and
duration 0 leaves both timestamps present (nonzero) with
`off_at = on_at = 105`, so `off_at > on_at` fails after an `arm`. -/
theorem strict_order_invariant_fails_at_zero_duration :
    (armStep initState 13 5 0 false 100).2.relayOnAt ch13 ≠ 0 ∧
    (armStep initState 13 5 0 false 100).2.relayOffAt ch13 ≠ 0 ∧
    ¬ (armStep initState 13 5 0 false 100).2.relayOnAt ch13 <
        (armStep initState 13 5 0 false 100).2.relayOffAt ch13 := by
  decide

/-- The repaired ordering invariant: whenever both timestamps are
present, `off_at ≥ on_at`. -/
def invGE (s : SysState) : Prop :=
  ∀ i, s.relayOnAt i ≠ 0 → s.relayOffAt i ≠ 0 →
    s.relayOnAt i ≤ s.relayOffAt i

instance (s : SysState) : Decidable (invGE s) := by
  unfold invGE; infer_instance

/-- C5 (amended): whenever both `on_at` and `off_at` are present,
`off_at ≥ on_at` (equality at zero duration); this is preserved by
every tick, and by every arm with non-negative delay and duration whose
computed timestamps do not wrap past `2^32`. -/
theorem order_invariant_preserved :
    (∀ (s : SysState) (now : Nat), invGE s → invGE (tick s now)) ∧
    (∀ (s : SysState) (pin d u : Int) (ow : Bool) (now : Nat),
       invGE s → 0 ≤ d → 0 ≤ u →
       now + d.toNat + u.toNat < UINT32_MOD →
       invGE (armStep s pin d u ow now).2) := by
  constructor
  · intro s now h i
    dsimp [tick]
    split_ifs with h1 h2 <;> intro hOn hOff
    · exact absurd rfl hOn
    · exact absurd rfl hOn
    · exact absurd rfl hOff
    · exact h i hOn hOff
  · intro s pin d u ow now h hd hu hbound
    have hdU : toUInt32 d = d.toNat := by
      unfold toUInt32 UINT32_MOD at *; omega
    have huU : toUInt32 u = u.toNat := by
      unfold toUInt32 UINT32_MOD at *; omega
    unfold armStep
    cases hfp : findPin pin with
    | none => exact h
    | some i =>
      dsimp only
      split_ifs with hb
      · exact h
      · intro j hOn hOff
        dsimp at hOn hOff ⊢
        by_cases hji : j = i
        · subst hji
          simp only [updAt_same, hdU, huU] at hOn hOff ⊢
          have h1 : (now + d.toNat) % UINT32_MOD = now + d.toNat :=
            Nat.mod_eq_of_lt (by omega)
          have h2 : (now + d.toNat + u.toNat) % UINT32_MOD =
              now + d.toNat + u.toNat := Nat.mod_eq_of_lt (by omega)
          simp only [h1, h2]
          omega
        · simp only [updAt_other _ _ hji] at hOn hOff ⊢
          exact h j hOn hOff

/-- Witness for C5 (amended): the all-clear boot state satisfies the
invariant, and it still holds after arming pin 13 at `now = 100` with
delay 5, duration 0 (where `off_at = on_at = 105`) and after a
subsequent tick. -/
theorem order_invariant_preserved_witness :
    invGE (armStep initState 13 5 0 false 100).2 ∧
    invGE (tick (armStep initState 13 5 0 false 100).2 105) :=
  ⟨order_invariant_preserved.2 initState 13 5 0 false 100 (by decide)
     (by decide) (by decide) (by decide),
   order_invariant_preserved.1 _ 105
     (order_invariant_preserved.2 initState 13 5 0 false 100 (by decide)
       (by decide) (by decide) (by decide))⟩

end RelayFw

namespace RelayFw

/-! ### C3 -/

/-- C3: the tick's due-comparison is NOT wrap-safe. With channel 4's
`on_at` deadline set just before the counter maximum (`2^32 - 10`) and
`now` wrapped to just after zero (`now = 5`), the spec's wrap-safe test
judges the deadline due, but the source's plain `now >= relayOnAt[i]`
does not: the tick fires nothing and leaves the deadline pending. -/
theorem naive_due_comparison_misses_wrapped_deadline :
    wrapDue 5 (UINT32_MOD - 10) = true ∧
    tickEvents
      { initState with relayOnAt := updAt initState.relayOnAt ch13 (UINT32_MOD - 10) }
      5 = [] ∧
    (tick { initState with relayOnAt := updAt initState.relayOnAt ch13 (UINT32_MOD - 10) }
      5).relayOnAt ch13 = UINT32_MOD - 10 := by
  decide

/-! ### C4 -/

/-- Counterexample to C4: arming pin 13 with delay 0 and duration 0 at
`now = 0` is acknowledged `OK`, but both computed deadlines equal the
`0` "unset" sentinel, so the next tick (here at `now = 1000`) performs
no transition at all on any channel — the channel is never energized,
contradicting the claim as universally stated. -/
theorem zero_delay_arm_at_time_zero_never_fires :
    (armStep initState 13 0 0 false 0).1 = "OK" ∧
    (armStep initState 13 0 0 false 0).2.relayOnAt ch13 = 0 ∧
    (armStep initState 13 0 0 false 0).2.relayOffAt ch13 = 0 ∧
    tickEvents (armStep initState 13 0 0 false 0).2 1000 = [] := by
  decide

/-- C4 (amended): provided the arm happens at a nonzero counter value
(`1 ≤ now < 2^32`, so the computed deadlines are not the `0` sentinel),
arming an idle configured pin with delay 0 and duration 0 makes the
next tick (at any `now2 ≥ now`) energize and then de-energize that
channel within the same tick — the on-check runs before the off-check
and both fire — clearing both `on_at` and `off_at`, after which no
further tick performs any transition on that channel. -/
theorem zero_delay_duration_cycles_in_one_tick :
    ∀ (s : SysState) (pin : Int) (now now2 : Nat) (i : Fin NUM_RELAYS),
      findPin pin = some i → s.relayOffAt i ≤ now →
      1 ≤ now → now < UINT32_MOD → now ≤ now2 →
      (armStep s pin 0 0 false now).1 = "OK" ∧
      channelEvents (armStep s pin 0 0 false now).2 now2 i = [true, false] ∧
      (tick (armStep s pin 0 0 false now).2 now2).relayOnAt i = 0 ∧
      (tick (armStep s pin 0 0 false now).2 now2).relayOffAt i = 0 ∧
      ∀ now3, channelEvents (tick (armStep s pin 0 0 false now).2 now2) now3 i = [] := by
  intro s pin now now2 i hfp hidle h1 hM h12
  have hb : ¬ now < s.relayOffAt i := by omega
  have hmod : (now + toUInt32 0) % UINT32_MOD = now := by
    have h0 : toUInt32 0 = 0 := by decide
    rw [h0]
    simpa using Nat.mod_eq_of_lt hM
  have hfst : (armStep s pin 0 0 false now).1 = "OK" := by
    simp [armStep, hfp, hb]
  have hOn : (armStep s pin 0 0 false now).2.relayOnAt i = now := by
    simp [armStep, hfp, hb, hmod, updAt_same]
  have hOff : (armStep s pin 0 0 false now).2.relayOffAt i = now := by
    simp [armStep, hfp, hb, hmod, updAt_same]
  have hcond : (armStep s pin 0 0 false now).2.relayOnAt i ≠ 0 ∧
      (armStep s pin 0 0 false now).2.relayOnAt i ≤ now2 := by
    rw [hOn]; omega
  have hcond2 : (armStep s pin 0 0 false now).2.relayOffAt i ≠ 0 ∧
      (armStep s pin 0 0 false now).2.relayOffAt i ≤ now2 := by
    rw [hOff]; omega
  have hev : channelEvents (armStep s pin 0 0 false now).2 now2 i =
      [true, false] := by
    unfold channelEvents
    rw [if_pos hcond, if_pos hcond2]
    rfl
  have htickOn : (tick (armStep s pin 0 0 false now).2 now2).relayOnAt i = 0 := by
    show (if _ ∧ _ then 0 else _) = 0
    rw [if_pos hcond]
  have htickOff : (tick (armStep s pin 0 0 false now).2 now2).relayOffAt i = 0 := by
    show (if _ ∧ _ then 0 else _) = 0
    rw [if_pos hcond2]
  refine ⟨hfst, hev, htickOn, htickOff, fun now3 => ?_⟩
  unfold channelEvents
  rw [htickOn, htickOff]
  simp

/-- Witness for C4 (amended): arming idle pin 13 at `now = 100` and
ticking at `now2 = 100` yields the in-tick event sequence
`[energize, de-energize]` on channel 4, clears both deadlines, and a
later tick at `now3 = 555` performs nothing on that channel. -/
theorem zero_delay_duration_cycles_in_one_tick_witness :
    (armStep initState 13 0 0 false 100).1 = "OK" ∧
    channelEvents (armStep initState 13 0 0 false 100).2 100 ch13 = [true, false] ∧
    (tick (armStep initState 13 0 0 false 100).2 100).relayOnAt ch13 = 0 ∧
    (tick (armStep initState 13 0 0 false 100).2 100).relayOffAt ch13 = 0 ∧
    channelEvents (tick (armStep initState 13 0 0 false 100).2 100) 555 ch13 = [] := by
  have h := zero_delay_duration_cycles_in_one_tick initState 13 100 100 ch13
    (by decide) (by decide) (by decide) (by decide) (by decide)
  exact ⟨h.1, h.2.1, h.2.2.1, h.2.2.2.1, h.2.2.2.2 555⟩

end RelayFw

namespace RelayFw

/-! ### C10 -/

/-- C10: the absence of a pending timestamp is encoded as the stored
value `0` and the tick fires a transition only when the stored value is
nonzero; hence an arm whose computed deadline is exactly `0` modulo
`2^32` stores the "unset" sentinel and that transition is never applied
by any subsequent tick. -/
theorem zero_deadline_is_unset_sentinel :
    (∀ (s : SysState) (now : Nat) (i : Fin NUM_RELAYS),
       s.relayOnAt i = 0 →
       (tick s now).relayOnAt i = 0 ∧ true ∉ channelEvents s now i) ∧
    (∀ (s : SysState) (now : Nat) (i : Fin NUM_RELAYS),
       s.relayOffAt i = 0 →
       (tick s now).relayOffAt i = 0 ∧ false ∉ channelEvents s now i) ∧
    (∀ (s : SysState) (pin d u : Int) (ow : Bool) (now : Nat)
       (i : Fin NUM_RELAYS),
       findPin pin = some i → (armStep s pin d u ow now).1 = "OK" →
       ((now + toUInt32 d) % UINT32_MOD = 0 →
          (armStep s pin d u ow now).2.relayOnAt i = 0 ∧
          ∀ now2, true ∉ channelEvents (armStep s pin d u ow now).2 now2 i) ∧
       (((now + toUInt32 d) % UINT32_MOD + toUInt32 u) % UINT32_MOD = 0 →
          (armStep s pin d u ow now).2.relayOffAt i = 0 ∧
          ∀ now2, false ∉ channelEvents (armStep s pin d u ow now).2 now2 i)) := by
  have evTrue : ∀ (s : SysState) (now : Nat) (i : Fin NUM_RELAYS),
      s.relayOnAt i = 0 → true ∉ channelEvents s now i := by
    intro s now i h hmem
    unfold channelEvents at hmem
    rw [if_neg (by simp [h])] at hmem
    rcases List.mem_append.mp hmem with h2 | h2
    · simp at h2
    · split at h2 <;> simp at h2
  have evFalse : ∀ (s : SysState) (now : Nat) (i : Fin NUM_RELAYS),
      s.relayOffAt i = 0 → false ∉ channelEvents s now i := by
    intro s now i h hmem
    unfold channelEvents at hmem
    rcases List.mem_append.mp hmem with h2 | h2
    · split at h2 <;> simp at h2
    · rw [if_neg (by simp [h])] at h2
      simp at h2
  refine ⟨fun s now i h => ⟨?_, evTrue s now i h⟩,
    fun s now i h => ⟨?_, evFalse s now i h⟩,
    fun s pin d u ow now i hfp hok => ?_⟩
  · show (if _ ∧ _ then 0 else _) = 0
    rw [if_neg (by simp [h])]
    exact h
  · show (if _ ∧ _ then 0 else _) = 0
    rw [if_neg (by simp [h])]
    exact h
  · have hbr : ¬ (!ow && decide (now < s.relayOffAt i)) = true := by
      intro hbusy
      have hB : (armStep s pin d u ow now).1 = "BUSY" := by
        simp [armStep, hfp, hbusy]
      rw [hok] at hB
      exact absurd hB (by decide)
    have hOn : (armStep s pin d u ow now).2.relayOnAt i =
        (now + toUInt32 d) % UINT32_MOD := by
      simp [armStep, hfp, hbr, updAt_same]
    have hOff : (armStep s pin d u ow now).2.relayOffAt i =
        ((now + toUInt32 d) % UINT32_MOD + toUInt32 u) % UINT32_MOD := by
      simp [armStep, hfp, hbr, updAt_same]
    exact ⟨fun hz => ⟨by rw [hOn]; exact hz,
        fun now2 => evTrue _ now2 i (by rw [hOn]; exact hz)⟩,
      fun hz => ⟨by rw [hOff]; exact hz,
        fun now2 => evFalse _ now2 i (by rw [hOff]; exact hz)⟩⟩

/-- Witness for C10: an overwrite arm of pin 13 at
`now = 2^32 - 5` with delay 5 computes `on_at = 0`, so the stored value
is the sentinel and a later tick (at `now = 999`) never energizes the
channel; and on the boot state a tick fires nothing. -/
theorem zero_deadline_is_unset_sentinel_witness :
    (armStep initState 13 5 0 true (UINT32_MOD - 5)).2.relayOnAt ch13 = 0 ∧
    true ∉ channelEvents (armStep initState 13 5 0 true (UINT32_MOD - 5)).2 999 ch13 ∧
    (tick initState 999).relayOnAt ch13 = 0 ∧
    true ∉ channelEvents initState 999 ch13 := by
  have h3 := (zero_deadline_is_unset_sentinel.2.2 initState 13 5 0 true
    (UINT32_MOD - 5) ch13 (by decide) (by decide)).1 (by decide)
  have h1 := zero_deadline_is_unset_sentinel.1 initState 999 ch13 (by decide)
  exact ⟨h3.1, h3.2 999, h1.1, h1.2⟩

end RelayFw

namespace RelayFw

/-! ### Case-variation machinery (C7, C8) -/

/-- `a` is a case variation of `b`: same characters up to letter case. -/
def caseVariant (a b : List Char) : Prop :=
  a.map Char.toLower = b.map Char.toLower

instance (a b : List Char) : Decidable (caseVariant a b) := by
  unfold caseVariant; infer_instance

theorem eqIgnoreCase_of_caseVariant {a b : List Char}
    (h : caseVariant a b) : eqIgnoreCase a b = true := by
  simpa [eqIgnoreCase] using h

theorem eqIgnoreCase_false_of_caseVariant {a b c : List Char}
    (h : caseVariant a b)
    (hne : b.map Char.toLower ≠ c.map Char.toLower) :
    eqIgnoreCase a c = false := by
  apply Bool.eq_false_iff.mpr
  intro habs
  have hm : a.map Char.toLower = c.map Char.toLower := by
    simpa [eqIgnoreCase] using habs
  exact hne (h.symm.trans hm)

/-! ### C7 -/

/-- Counterexample to C7: the all-lowercase line `hi, are you arduino?`
is claimed to yield `ERR`, but the source matches the handshake with
`equalsIgnoreCase`, so it yields `This is Arduino`. -/
theorem lowercase_handshake_accepted :
    (handleCommand initState ("hi, are you arduino?".toList) 0).1 =
      "This is Arduino" ∧
    (handleCommand initState ("hi, are you arduino?".toList) 0).1 ≠ "ERR" := by
  decide

/-- C7 (amended): the handshake phrase is matched case-insensitively,
exactly like the keyword commands: every case variation of
`Hi, are you arduino?` yields the reply `This is Arduino` with no state
change. -/
theorem handshake_case_insensitive :
    ∀ (s : SysState) (now : Nat) (cmd : List Char),
      caseVariant cmd HANDSHAKE_Q →
      handleCommand s cmd now = (HANDSHAKE_A, s) := by
  intro s now cmd h
  have h1 := eqIgnoreCase_false_of_caseVariant h (c := KW_PING) (by decide)
  have h2 := eqIgnoreCase_false_of_caseVariant h (c := KW_LED_ON) (by decide)
  have h3 := eqIgnoreCase_false_of_caseVariant h (c := KW_LED_OFF) (by decide)
  have h4 := eqIgnoreCase_false_of_caseVariant h (c := KW_STATUS) (by decide)
  have h5 := eqIgnoreCase_of_caseVariant h
  simp [handleCommand, h1, h2, h3, h4, h5]

/-- Witness for C7 (amended): the upper-cased handshake line replies
`This is Arduino` and leaves the boot state unchanged. -/
theorem handshake_case_insensitive_witness :
    handleCommand initState ("HI, ARE YOU ARDUINO?".toList) 3 =
      ("This is Arduino", initState) :=
  handshake_case_insensitive initState 3 _ (by decide)

end RelayFw

namespace RelayFw

/-! ### C8 -/

/-- Counterexample to C8: the relay keyword prefix is matched
case-sensitively (`String::startsWith`), so the case-varied
`relay_on;13;0;5` replies `ERR` while canonical `RELAY_ON;13;0;5`
replies `OK` — not the same reply. -/
theorem lowercase_relay_keyword_rejected :
    (handleCommand initState ("relay_on;13;0;5".toList) 100).1 ≠
      (handleCommand initState ("RELAY_ON;13;0;5".toList) 100).1 ∧
    (handleCommand initState ("relay_on;13;0;5".toList) 100).1 = "ERR" ∧
    (handleCommand initState ("RELAY_ON;13;0;5".toList) 100).1 = "OK" := by
  decide

theorem eqIgnoreCase_head_ne {c k : Char} {t ks : List Char}
    (h : Char.toLower c ≠ Char.toLower k) :
    eqIgnoreCase (c :: t) (k :: ks) = false := by
  apply Bool.eq_false_iff.mpr
  intro habs
  have hm : (c :: t).map Char.toLower = (k :: ks).map Char.toLower := by
    simpa [eqIgnoreCase] using habs
  simp only [List.map_cons, List.cons.injEq] at hm
  exact h hm.1

/-- C8 (amended): the keyword commands `PING`, `LED ON`, `LED OFF` and
`STATUS` are matched case-insensitively — every case variation yields
the canonical reply and effect — but the `RELAY_ON` /
`RELAY_ON_OVERWRITE` keyword prefix is matched case-sensitively: every
line beginning with the case-varied prefix `relay_on;` falls through to
the `ERR` branch with no state change. -/
theorem keyword_case_insensitivity_scope :
    (∀ (s : SysState) (now : Nat) (cmd : List Char),
       caseVariant cmd KW_PING →
       handleCommand s cmd now = ("PONG", s)) ∧
    (∀ (s : SysState) (now : Nat) (cmd : List Char),
       caseVariant cmd KW_LED_ON →
       handleCommand s cmd now = ("OK", { s with led := true })) ∧
    (∀ (s : SysState) (now : Nat) (cmd : List Char),
       caseVariant cmd KW_LED_OFF →
       handleCommand s cmd now = ("OK", { s with led := false })) ∧
    (∀ (s : SysState) (now : Nat) (cmd : List Char),
       caseVariant cmd KW_STATUS →
       handleCommand s cmd now = ("READY", s)) ∧
    (∀ (s : SysState) (now : Nat) (t : List Char),
       handleCommand s
         ('r' :: 'e' :: 'l' :: 'a' :: 'y' :: '_' :: 'o' :: 'n' :: ';' :: t)
         now = ("ERR", s)) := by
  refine ⟨fun s now cmd h => ?_, fun s now cmd h => ?_,
    fun s now cmd h => ?_, fun s now cmd h => ?_, fun s now t => ?_⟩
  · simp [handleCommand, eqIgnoreCase_of_caseVariant h]
  · have h1 := eqIgnoreCase_false_of_caseVariant h (c := KW_PING) (by decide)
    simp [handleCommand, h1, eqIgnoreCase_of_caseVariant h]
  · have h1 := eqIgnoreCase_false_of_caseVariant h (c := KW_PING) (by decide)
    have h2 := eqIgnoreCase_false_of_caseVariant h (c := KW_LED_ON) (by decide)
    simp [handleCommand, h1, h2, eqIgnoreCase_of_caseVariant h]
  · have h1 := eqIgnoreCase_false_of_caseVariant h (c := KW_PING) (by decide)
    have h2 := eqIgnoreCase_false_of_caseVariant h (c := KW_LED_ON) (by decide)
    have h3 := eqIgnoreCase_false_of_caseVariant h (c := KW_LED_OFF) (by decide)
    simp [handleCommand, h1, h2, h3, eqIgnoreCase_of_caseVariant h]
  · have e1 : eqIgnoreCase
        ('r' :: 'e' :: 'l' :: 'a' :: 'y' :: '_' :: 'o' :: 'n' :: ';' :: t)
        KW_PING = false := by
      rw [show KW_PING = 'P' :: "ING".toList from by decide]
      exact eqIgnoreCase_head_ne (by decide)
    have e2 : eqIgnoreCase
        ('r' :: 'e' :: 'l' :: 'a' :: 'y' :: '_' :: 'o' :: 'n' :: ';' :: t)
        KW_LED_ON = false := by
      rw [show KW_LED_ON = 'L' :: "ED ON".toList from by decide]
      exact eqIgnoreCase_head_ne (by decide)
    have e3 : eqIgnoreCase
        ('r' :: 'e' :: 'l' :: 'a' :: 'y' :: '_' :: 'o' :: 'n' :: ';' :: t)
        KW_LED_OFF = false := by
      rw [show KW_LED_OFF = 'L' :: "ED OFF".toList from by decide]
      exact eqIgnoreCase_head_ne (by decide)
    have e4 : eqIgnoreCase
        ('r' :: 'e' :: 'l' :: 'a' :: 'y' :: '_' :: 'o' :: 'n' :: ';' :: t)
        KW_STATUS = false := by
      rw [show KW_STATUS = 'S' :: "TATUS".toList from by decide]
      exact eqIgnoreCase_head_ne (by decide)
    have e5 : eqIgnoreCase
        ('r' :: 'e' :: 'l' :: 'a' :: 'y' :: '_' :: 'o' :: 'n' :: ';' :: t)
        HANDSHAKE_Q = false := by
      rw [show HANDSHAKE_Q = 'H' :: "i, are you arduino?".toList from by decide]
      exact eqIgnoreCase_head_ne (by decide)
    have hb : ('R' == 'r') = false := by decide
    have p1 : startsWithL PRE_RELAY_ON
        ('r' :: 'e' :: 'l' :: 'a' :: 'y' :: '_' :: 'o' :: 'n' :: ';' :: t) =
        false := by
      rw [show PRE_RELAY_ON = 'R' :: "ELAY_ON;".toList from by decide]
      simp [startsWithL, hb]
    have p2 : startsWithL PRE_RELAY_ON_OW
        ('r' :: 'e' :: 'l' :: 'a' :: 'y' :: '_' :: 'o' :: 'n' :: ';' :: t) =
        false := by
      rw [show PRE_RELAY_ON_OW =
        'R' :: "ELAY_ON_OVERWRITE;".toList from by decide]
      simp [startsWithL, hb]
    simp [handleCommand, e1, e2, e3, e4, e5, p1, p2]

/-- Witness for C8 (amended): the case variation `Ping` replies `PONG`
on the boot state, and the lower-cased relay line
`relay_on;13;0;5` replies `ERR` with no state change. -/
theorem keyword_case_insensitivity_scope_witness :
    handleCommand initState ("Ping".toList) 0 = ("PONG", initState) ∧
    handleCommand initState
      ('r' :: 'e' :: 'l' :: 'a' :: 'y' :: '_' :: 'o' :: 'n' :: ';' :: "13;0;5".toList)
      100 = ("ERR", initState) :=
  ⟨keyword_case_insensitivity_scope.1 initState 0 _ (by decide),
   keyword_case_insensitivity_scope.2.2.2.2 initState 100 ("13;0;5".toList)⟩

end RelayFw

namespace RelayFw

/-! ### C6 -/

/-- The five keyword tests of `handleCommand` (everything matched by
`equalsIgnoreCase`). -/
def keywordMatch (cmd : List Char) : Bool :=
  eqIgnoreCase cmd KW_PING || eqIgnoreCase cmd KW_LED_ON ||
  eqIgnoreCase cmd KW_LED_OFF || eqIgnoreCase cmd KW_STATUS ||
  eqIgnoreCase cmd HANDSHAKE_Q

/-- A malformed command in the sense of the spec's error-handling rule:
an unknown keyword (no keyword match, no relay prefix), or a relay
command with too few `;`-separated fields, or a relay command naming a
pin that no configured channel has. -/
def malformedCmd (cmd : List Char) : Bool :=
  (!keywordMatch cmd && !startsWithL PRE_RELAY_ON cmd &&
     !startsWithL PRE_RELAY_ON_OW cmd) ||
  ((startsWithL PRE_RELAY_ON cmd || startsWithL PRE_RELAY_ON_OW cmd) &&
    (match relayFields cmd with
     | none => true
     | some f => (findPin f.1).isNone))

theorem keywordMatch_consR (t : List Char) :
    keywordMatch ('R' :: t) = false := by
  have e1 : eqIgnoreCase ('R' :: t) KW_PING = false := by
    rw [show KW_PING = 'P' :: "ING".toList from by decide]
    exact eqIgnoreCase_head_ne (by decide)
  have e2 : eqIgnoreCase ('R' :: t) KW_LED_ON = false := by
    rw [show KW_LED_ON = 'L' :: "ED ON".toList from by decide]
    exact eqIgnoreCase_head_ne (by decide)
  have e3 : eqIgnoreCase ('R' :: t) KW_LED_OFF = false := by
    rw [show KW_LED_OFF = 'L' :: "ED OFF".toList from by decide]
    exact eqIgnoreCase_head_ne (by decide)
  have e4 : eqIgnoreCase ('R' :: t) KW_STATUS = false := by
    rw [show KW_STATUS = 'S' :: "TATUS".toList from by decide]
    exact eqIgnoreCase_head_ne (by decide)
  have e5 : eqIgnoreCase ('R' :: t) HANDSHAKE_Q = false := by
    rw [show HANDSHAKE_Q = 'H' :: "i, are you arduino?".toList from by decide]
    exact eqIgnoreCase_head_ne (by decide)
  simp [keywordMatch, e1, e2, e3, e4, e5]

/-- C6: every malformed command — unknown keyword, relay command with
too few `;`-separated fields, or relay command naming an unconfigured
pin — replies `ERR` and leaves the whole state (all `on_at`/`off_at`
and the LED) unchanged. -/
theorem malformed_command_errs :
    ∀ (s : SysState) (cmd : List Char) (now : Nat),
      malformedCmd cmd = true → handleCommand s cmd now = ("ERR", s) := by
  intro s cmd now h
  unfold malformedCmd at h
  rcases Bool.or_eq_true_iff.mp h with hA | hB
  · obtain ⟨⟨hk, hp1⟩, hp2⟩ := by
      simpa [Bool.and_eq_true, Bool.not_eq_true'] using hA
    simp only [keywordMatch, Bool.or_eq_false_iff] at hk
    obtain ⟨⟨⟨⟨k1, k2⟩, k3⟩, k4⟩, k5⟩ := hk
    simp [handleCommand, k1, k2, k3, k4, k5, hp1, hp2]
  · rw [Bool.and_eq_true] at hB
    obtain ⟨hpre, hbad⟩ := hB
    rcases Bool.or_eq_true_iff.mp hpre with hp1 | hp2
    · obtain ⟨t, rfl⟩ := startsWithL_iff.mp hp1
      have hcons : PRE_RELAY_ON ++ t =
          'R' :: 'E' :: 'L' :: 'A' :: 'Y' :: '_' :: 'O' :: 'N' :: ';' :: t := by
        rw [show PRE_RELAY_ON =
          ['R', 'E', 'L', 'A', 'Y', '_', 'O', 'N', ';'] from by decide]
        rfl
      rw [hcons] at hbad hp1 ⊢
      have hk := keywordMatch_consR
        ('E' :: 'L' :: 'A' :: 'Y' :: '_' :: 'O' :: 'N' :: ';' :: t)
      simp only [keywordMatch, Bool.or_eq_false_iff] at hk
      obtain ⟨⟨⟨⟨k1, k2⟩, k3⟩, k4⟩, k5⟩ := hk
      cases hrf : relayFields
          ('R' :: 'E' :: 'L' :: 'A' :: 'Y' :: '_' :: 'O' :: 'N' :: ';' :: t) with
      | none =>
        simp [handleCommand, k1, k2, k3, k4, k5, hp1, hrf]
      | some f =>
        obtain ⟨pin, d2, u2⟩ := f
        rw [hrf] at hbad
        have hfn : findPin pin = none := by
          simpa [Option.isNone_iff_eq_none] using hbad
        simp [handleCommand, k1, k2, k3, k4, k5, hp1, hrf, armStep, hfn]
    · obtain ⟨t, rfl⟩ := startsWithL_iff.mp hp2
      have hcons : PRE_RELAY_ON_OW ++ t =
          'R' :: 'E' :: 'L' :: 'A' :: 'Y' :: '_' :: 'O' :: 'N' :: '_' ::
            'O' :: 'V' :: 'E' :: 'R' :: 'W' :: 'R' :: 'I' :: 'T' :: 'E' ::
            ';' :: t := by
        rw [show PRE_RELAY_ON_OW =
          ['R', 'E', 'L', 'A', 'Y', '_', 'O', 'N', '_', 'O', 'V', 'E', 'R',
           'W', 'R', 'I', 'T', 'E', ';'] from by decide]
        rfl
      rw [hcons] at hbad hp2 ⊢
      have hk := keywordMatch_consR
        ('E' :: 'L' :: 'A' :: 'Y' :: '_' :: 'O' :: 'N' :: '_' ::
          'O' :: 'V' :: 'E' :: 'R' :: 'W' :: 'R' :: 'I' :: 'T' :: 'E' ::
          ';' :: t)
      simp only [keywordMatch, Bool.or_eq_false_iff] at hk
      obtain ⟨⟨⟨⟨k1, k2⟩, k3⟩, k4⟩, k5⟩ := hk
      have hno : startsWithL PRE_RELAY_ON
          ('R' :: 'E' :: 'L' :: 'A' :: 'Y' :: '_' :: 'O' :: 'N' :: '_' ::
            'O' :: 'V' :: 'E' :: 'R' :: 'W' :: 'R' :: 'I' :: 'T' :: 'E' ::
            ';' :: t) = false := by
        rw [show PRE_RELAY_ON =
          ['R', 'E', 'L', 'A', 'Y', '_', 'O', 'N', ';'] from by decide]
        have hb : (';' == '_') = false := by decide
        simp [startsWithL, hb]
      cases hrf : relayFields
          ('R' :: 'E' :: 'L' :: 'A' :: 'Y' :: '_' :: 'O' :: 'N' :: '_' ::
            'O' :: 'V' :: 'E' :: 'R' :: 'W' :: 'R' :: 'I' :: 'T' :: 'E' ::
            ';' :: t) with
      | none =>
        simp [handleCommand, k1, k2, k3, k4, k5, hno, hp2, hrf]
      | some f =>
        obtain ⟨pin, d2, u2⟩ := f
        rw [hrf] at hbad
        have hfn : findPin pin = none := by
          simpa [Option.isNone_iff_eq_none] using hbad
        simp [handleCommand, k1, k2, k3, k4, k5, hno, hp2, hrf, armStep, hfn]

/-- Witness for C6: the unknown keyword `HELLO`, the short relay line
`RELAY_ON;5;10` and the unknown-pin line `RELAY_ON;99;10;10` are all
malformed and all reply `ERR` leaving the boot state unchanged. -/
theorem malformed_command_errs_witness :
    handleCommand initState ("HELLO".toList) 5 = ("ERR", initState) ∧
    handleCommand initState ("RELAY_ON;5;10".toList) 5 = ("ERR", initState) ∧
    handleCommand initState ("RELAY_ON;99;10;10".toList) 5 = ("ERR", initState) :=
  ⟨malformed_command_errs initState _ 5 (by decide),
   malformed_command_errs initState _ 5 (by decide),
   malformed_command_errs initState _ 5 (by decide)⟩

end RelayFw

namespace RelayFw

/-! ### C9 -/

set_option maxRecDepth 40000 in
/-- Counterexample to C9: a 125-character line (121 overflow characters
followed by `PING`) exceeds the cap, the buffer resets at the 121st
character, but the residue `PING` accumulated after the reset IS
processed when the terminator arrives: the reply `PONG` is emitted for
that input, contradicting "no reply is emitted". -/
theorem overflow_residue_is_processed :
    (processLines initState 0
      (drainLines [] (List.replicate 121 'A' ++ "PING\n".toList)).1).1 =
      ["PONG"] := by
  decide

theorem drainLines_cons (b : List Char) (c : Char) (rest : List Char) :
    drainLines b (c :: rest) =
      if c = '\r' then drainLines b rest
      else if c = '\n' then
        (b :: (drainLines [] rest).1, (drainLines [] rest).2)
      else drainLines (pushChar b c) rest := rfl

theorem drainLines_plain (zs : List Char) : ∀ (b rest : List Char),
    (∀ c ∈ zs, c ≠ '\n' ∧ c ≠ '\r') →
    drainLines b (zs ++ rest) = drainLines (zs.foldl pushChar b) rest := by
  induction zs with
  | nil => intro b rest _; simp
  | cons c zs ih =>
    intro b rest h
    have hc := h c (by simp)
    have hrest : ∀ x ∈ zs, x ≠ '\n' ∧ x ≠ '\r' := fun x hx => h x (by simp [hx])
    rw [List.cons_append, List.foldl_cons, drainLines_cons,
      if_neg hc.2, if_neg hc.1]
    exact ih (pushChar b c) rest hrest

theorem foldl_pushChar_no_overflow (zs : List Char) : ∀ (b : List Char),
    b.length + zs.length ≤ 120 → zs.foldl pushChar b = b ++ zs := by
  induction zs with
  | nil => intro b _; simp
  | cons c zs ih =>
    intro b h
    simp only [List.length_cons] at h
    rw [List.foldl_cons]
    have hp : pushChar b c = b ++ [c] := by
      unfold pushChar
      rw [if_neg]
      simp
      omega
    rw [hp, ih (b ++ [c]) (by simp; omega)]
    simp

theorem foldl_pushChar_reset (xs : List Char) (h : xs.length = 121) :
    xs.foldl pushChar [] = [] := by
  have h120 : (xs.take 120).length = 120 := by simp [h]
  have hdrop : (xs.drop 120).length = 1 := by simp [h]
  obtain ⟨c, hc⟩ := List.length_eq_one.mp hdrop
  calc xs.foldl pushChar []
      = ((xs.take 120) ++ [c]).foldl pushChar [] := by
        rw [← hc, List.take_append_drop]
    _ = [c].foldl pushChar (List.foldl pushChar [] (xs.take 120)) :=
        List.foldl_append _ _ _ _
    _ = [c].foldl pushChar (xs.take 120) := by
        rw [foldl_pushChar_no_overflow (xs.take 120) [] (by simp [h120])]
        simp
    _ = pushChar (xs.take 120) c := rfl
    _ = [] := by
        unfold pushChar
        rw [if_pos]
        simp [h120]

/-- C9 (amended): when an unterminated line exceeds the 120-character
cap, the accumulator silently resets its buffer to empty, discarding
everything received so far; characters arriving after the reset are
accumulated as a fresh line, so when the terminator arrives right at
the reset the completed line is empty — no reply is emitted and no
state is changed for it — and the next line is accumulated and handled
unaffected. -/
theorem line_overflow_discards_and_resets :
    ∀ (xs ys : List Char) (s : SysState) (now : Nat),
      (∀ c ∈ xs, c ≠ '\n' ∧ c ≠ '\r') → xs.length = 121 →
      (∀ c ∈ ys, c ≠ '\n' ∧ c ≠ '\r') → ys.length ≤ 120 →
      drainLines [] (xs ++ '\n' :: (ys ++ ['\n'])) = ([[], ys], []) ∧
      handleLine s now [] = (none, s) ∧
      processLines s now [[], ys] = processLines s now [ys] := by
  intro xs ys s now hxs hlen hys hylen
  refine ⟨?_, rfl, ?_⟩
  · rw [drainLines_plain xs [] ('\n' :: (ys ++ ['\n'])) hxs,
      foldl_pushChar_reset xs hlen, drainLines_cons,
      if_neg (by decide), if_pos rfl,
      drainLines_plain ys [] ['\n'] hys,
      foldl_pushChar_no_overflow ys [] (by simpa using hylen),
      List.nil_append, drainLines_cons, if_neg (by decide), if_pos rfl]
    rfl
  · show processLines s now ([] :: [ys]) = _
    unfold processLines
    rfl

/-- Witness for C9 (amended): 121 overflow characters followed
immediately by the terminator yield the empty line (no reply, no state
change) and the following `STATUS` line is handled unaffected. -/
theorem line_overflow_discards_and_resets_witness :
    drainLines [] (List.replicate 121 'A' ++ '\n' :: ("STATUS".toList ++ ['\n'])) =
      ([[], "STATUS".toList], []) ∧
    handleLine initState 0 [] = (none, initState) ∧
    processLines initState 0 [[], "STATUS".toList] =
      processLines initState 0 ["STATUS".toList] :=
  line_overflow_discards_and_resets (List.replicate 121 'A')
    ("STATUS".toList) initState 0 (by decide) (by decide) (by decide)
    (by decide)

end RelayFw
